import Mathlib

set_option maxHeartbeats 1000000

/-! Shallow embedding of pman's src/pman/resources.py: the command builder
JobListResource.build_app_cmd, the backend selector get_compute_mgr, and the
job dispatch handlers JobListResource.post, JobResource.get and
JobResource.delete.  Python strings are modelled as Lean String values with
character-level operations on String.data (a List Char); the effectful
backend calls are modelled by a record of functions together with a trace of
the calls each handler performs. -/

/-- Mounting point for the input dir in the app's container
(JobListResource.str_app_container_inputdir in the source). -/
def str_app_container_inputdir : String := "/share/incoming"

/-- Mounting point for the output dir in the app's container
(JobListResource.str_app_container_outputdir in the source). -/
def str_app_container_outputdir : String := "/share/outgoing"

/-- Python str.split() with no separator argument: split on runs of
whitespace, dropping empty tokens.  The accumulator holds the current token
reversed. -/
def splitWSAux : List Char → List Char → List (List Char)
  | acc, [] => if acc = [] then [] else [acc.reverse]
  | acc, c :: cs =>
    if c.isWhitespace then
      if acc = [] then splitWSAux [] cs else acc.reverse :: splitWSAux [] cs
    else splitWSAux (c :: acc) cs

/-- Python cmd_args.split() from build_app_cmd. -/
def splitWS (l : List Char) : List (List Char) := splitWSAux [] l

/-- Python str.split(',') (keeps empty pieces), used for cmd_path_flags. -/
def splitCommaAux : List Char → List Char → List (List Char)
  | acc, [] => [acc.reverse]
  | acc, c :: cs =>
    if c = ',' then acc.reverse :: splitCommaAux [] cs
    else splitCommaAux (c :: acc) cs

/-- Python cmd_path_flags.split(',') from build_app_cmd. -/
def splitComma (l : List Char) : List (List Char) := splitCommaAux [] l

/-- Python ' '.join(args) from build_app_cmd. -/
def joinWS (ts : List (List Char)) : List Char := List.intercalate [' '] ts

/-- posixpath.join for two components, the os.path.join used in the source:
an absolute second component wins, otherwise the components are joined with
a single '/' unless the first is empty or already ends in '/'. -/
def osPathJoinL (a b : List Char) : List Char :=
  if b.head? = some '/' then b
  else if a = [] ∨ a.getLast? = some '/' then a ++ b
  else a ++ '/' :: b

/-- One iteration of the rewriting loop in build_app_cmd:
`if args[i] in path_flags: args[i+1] = self.str_app_container_inputdir`. -/
def loopStep (flags : List (List Char)) (acc : List (List Char)) (i : Nat) :
    List (List Char) :=
  if acc.getD i [] ∈ flags then acc.set (i + 1) str_app_container_inputdir.data
  else acc

/-- The loop `for i in range(len(args) - 1)` of build_app_cmd, run over the
token list produced by cmd_args.split(). -/
def substLoop (flags args : List (List Char)) : List (List Char) :=
  (List.range (args.length - 1)).foldl (loopStep flags) args

/-- Recursive reformulation of the rewriting loop: the Bool records whether
the previous token was a path flag, in which case the current token is
overwritten with the container input directory before being examined
itself. -/
def scanCore (flags : List (List Char)) : Bool → List (List Char) → List (List Char)
  | _, [] => []
  | replace, b :: rest =>
    let b2 := if replace then str_app_container_inputdir.data else b
    b2 :: scanCore flags (decide (b2 ∈ flags)) rest

/-- The rewriting pass of build_app_cmd as a left-to-right scan
(proved equal to substLoop below). -/
def scanSubst (flags l : List (List Char)) : List (List Char) :=
  scanCore flags false l

/-- JobListResource.build_app_cmd from src/pman/resources.py: rewrite the
argument of every path flag to the container input directory, then assemble
execshell, os.path.join(selfpath, selfexec), the (possibly rewritten)
arguments and the mount-contract directories according to the plugin type. -/
def build_app_cmd (cmd_args cmd_path_flags selfpath selfexec execshell
    plugin_type : String) : String :=
  let rewritten : List Char :=
    if cmd_path_flags.data ≠ [] then
      joinWS (substLoop (splitComma cmd_path_flags.data) (splitWS cmd_args.data))
    else cmd_args.data
  let outputdir := str_app_container_outputdir.data
  let ex := osPathJoinL selfpath.data selfexec.data
  let cmd := execshell.data ++ ' ' :: ex
  if plugin_type = "ds" then
    String.mk (cmd ++ ' ' :: rewritten ++ ' ' :: str_app_container_inputdir.data
      ++ ' ' :: outputdir)
  else if plugin_type = "fs" ∨ plugin_type = "ts" then
    String.mk (cmd ++ ' ' :: rewritten ++ ' ' :: outputdir)
  else String.mk cmd

/-- The three manager classes the selector can construct. -/
inductive ComputeMgrKind
  | swarm
  | kubernetes
  | openshift
deriving DecidableEq

/-- get_compute_mgr from src/pman/resources.py: compute_mgr starts as None,
the if/elif chain fills it in for the three known identifiers, and whatever
is left (None for anything unknown) is returned. -/
def get_compute_mgr (container_env : String) : Option ComputeMgrKind :=
  if container_env = "swarm" then some ComputeMgrKind.swarm
  else if container_env = "kubernetes" then some ComputeMgrKind.kubernetes
  else if container_env = "openshift" then some ComputeMgrKind.openshift
  else none

/-- Python jid.lstrip(c) for a single-character argument. -/
def lstrip (s : String) (c : Char) : String :=
  String.mk (s.data.dropWhile (fun d => d = c))

/-- The (status_code, message) pair carried by the abstract manager's
ManagerException. -/
structure ManagerException where
  status_code : Nat
  message : String
deriving DecidableEq

/-- The resources_dict assembled by JobListResource.post. -/
structure ResourcesDict where
  number_of_workers : String
  cpu_limit : String
  memory_limit : String
  gpu_limit : String
deriving DecidableEq

/-- The dictionary returned by a manager's get_job_info. -/
structure JobInfo where
  image : String
  cmd : String
  status : String
  message : String
  timestamp : String
deriving DecidableEq

/-- The JSON body assembled by the handlers on success. -/
structure JobRecord where
  jid : String
  image : String
  cmd : String
  status : String
  message : String
  timestamp : String
  logs : String
deriving DecidableEq

/-- The process-wide Flask app.config entries the handlers read. -/
structure AppConfig where
  CONTAINER_ENV : String
  STORAGE_TYPE : String
  STOREBASE : String
  SERVER_VERSION : String
deriving DecidableEq

/-- The thirteen required fields parsed by the request parser for POST. -/
structure PostArgs where
  jid : String
  cmd_args : String
  cmd_path_flags : String
  auid : String
  number_of_workers : String
  cpu_limit : String
  memory_limit : String
  gpu_limit : String
  image : String
  selfexec : String
  selfpath : String
  execshell : String
  type : String
deriving DecidableEq

/-- Observable events at the backend boundary: one constructor per compute
manager method the handlers invoke, recording the arguments the dispatch
layer chose. -/
inductive BackendCall
  | schedule_job (image cmd job_id : String) (resources_dict : ResourcesDict)
      (share_dir : Option String)
  | get_job (job_id : String)
  | get_job_info
  | get_job_logs
  | remove_job
deriving DecidableEq

/-- A compute manager, abstracted over its opaque job-handle type: the five
operations of the compute backend contract.  schedule_job and get_job may
raise ManagerException (the only exceptions the handlers catch). -/
structure ComputeMgr (H : Type) where
  schedule_job : String → String → String → ResourcesDict → Option String →
    Except ManagerException H
  get_job : String → Except ManagerException H
  get_job_info : H → JobInfo
  get_job_logs : H → String
  remove_job : H → Unit

/-- The cmd local of JobListResource.post. -/
def postCmd (args : PostArgs) : String :=
  build_app_cmd args.cmd_args args.cmd_path_flags args.selfpath args.selfexec
    args.execshell args.type

/-- The resources_dict local of JobListResource.post. -/
def postResources (args : PostArgs) : ResourcesDict :=
  { number_of_workers := args.number_of_workers
    cpu_limit := args.cpu_limit
    memory_limit := args.memory_limit
    gpu_limit := args.gpu_limit }

/-- The share_dir local of JobListResource.post: os.path.join(storebase,
'key-' + job_id) when STORAGE_TYPE is 'host' or 'nfs', otherwise None. -/
def postShareDir (cfg : AppConfig) (job_id : String) : Option String :=
  if cfg.STORAGE_TYPE = "host" ∨ cfg.STORAGE_TYPE = "nfs" then
    some (String.mk (osPathJoinL cfg.STOREBASE.data ("key-" ++ job_id).data))
  else none

/-- JobListResource.post: normalize the job id, build the command, compute
resources and share dir, schedule the job (aborting with the exception's
status code and message on ManagerException), then fetch info and logs and
assemble the 201 response.  The second component is the trace of backend
calls, in order. -/
def JobListResource.post {H : Type} (mgr : ComputeMgr H) (cfg : AppConfig)
    (args : PostArgs) :
    Except ManagerException (JobRecord × Nat) × List BackendCall :=
  let job_id := lstrip args.jid '/'
  let cmd := postCmd args
  let resources_dict := postResources args
  let share_dir := postShareDir cfg job_id
  match mgr.schedule_job args.image cmd job_id resources_dict share_dir with
  | Except.error e =>
    (Except.error e,
     [BackendCall.schedule_job args.image cmd job_id resources_dict share_dir])
  | Except.ok job =>
    let job_info := mgr.get_job_info job
    let job_logs := mgr.get_job_logs job
    (Except.ok
      ({ jid := job_id
         image := job_info.image
         cmd := job_info.cmd
         status := job_info.status
         message := job_info.message
         timestamp := job_info.timestamp
         logs := job_logs }, 201),
     [BackendCall.schedule_job args.image cmd job_id resources_dict share_dir,
      BackendCall.get_job_info, BackendCall.get_job_logs])

/-- JobResource.get: normalize the job id, look the job up (aborting on
ManagerException), then fetch info and logs and assemble the response. -/
def JobResource.get {H : Type} (mgr : ComputeMgr H) (jid : String) :
    Except ManagerException JobRecord × List BackendCall :=
  let job_id := lstrip jid '/'
  match mgr.get_job job_id with
  | Except.error e => (Except.error e, [BackendCall.get_job job_id])
  | Except.ok job =>
    let job_info := mgr.get_job_info job
    let job_logs := mgr.get_job_logs job
    (Except.ok
      { jid := job_id
        image := job_info.image
        cmd := job_info.cmd
        status := job_info.status
        message := job_info.message
        timestamp := job_info.timestamp
        logs := job_logs },
     [BackendCall.get_job job_id, BackendCall.get_job_info,
      BackendCall.get_job_logs])

/-- JobResource.delete: normalize the job id, look the job up (aborting on
ManagerException), remove it and answer 204 with an empty body. -/
def JobResource.delete {H : Type} (mgr : ComputeMgr H) (jid : String) :
    Except ManagerException (String × Nat) × List BackendCall :=
  let job_id := lstrip jid '/'
  match mgr.get_job job_id with
  | Except.error e => (Except.error e, [BackendCall.get_job job_id])
  | Except.ok job =>
    let _ := mgr.remove_job job
    (Except.ok ("", 204),
     [BackendCall.get_job job_id, BackendCall.remove_job])

/-- The job ids a backend call carries. -/
def callJobIds : BackendCall → List String
  | BackendCall.schedule_job _ _ j _ _ => [j]
  | BackendCall.get_job j => [j]
  | _ => []

/-- The share_dir argument of the first schedule_job call of a trace. -/
def scheduledShare : List BackendCall → Option (Option String)
  | BackendCall.schedule_job _ _ _ _ sd :: _ => some sd
  | _ => none

/-- A concrete backend whose calls all succeed, for witnesses. -/
def testMgr : ComputeMgr Unit :=
  { schedule_job := fun _ _ _ _ _ => Except.ok ()
    get_job := fun _ => Except.ok ()
    get_job_info := fun _ =>
      { image := "img", cmd := "cmd", status := "started", message := "ok"
        timestamp := "now" }
    get_job_logs := fun _ => ""
    remove_job := fun _ => () }

/-- A concrete backend whose schedule_job always fails, for witnesses. -/
def failMgr : ComputeMgr Unit :=
  { schedule_job := fun _ _ _ _ _ =>
      Except.error { status_code := 503, message := "quota exceeded" }
    get_job := fun _ => Except.ok ()
    get_job_info := fun _ =>
      { image := "img", cmd := "cmd", status := "started", message := "ok"
        timestamp := "now" }
    get_job_logs := fun _ => ""
    remove_job := fun _ => () }

/-- A concrete configuration, for witnesses. -/
def sampleCfg : AppConfig :=
  { CONTAINER_ENV := "swarm", STORAGE_TYPE := "host", STOREBASE := "/var/store"
    SERVER_VERSION := "4.1" }

/-- A concrete submission request, for witnesses. -/
def sampleArgs : PostArgs :=
  { jid := "/abc123"
    cmd_args := "--dir /local/a,/local/b --n 4"
    cmd_path_flags := "--dir"
    auid := "user"
    number_of_workers := "1"
    cpu_limit := "1000m"
    memory_limit := "200Mi"
    gpu_limit := "0"
    image := "fnndsc/app"
    selfexec := "app"
    selfpath := "/usr/local/bin"
    execshell := "python3"
    type := "ds" }

theorem loopStep_cons_succ (flags : List (List Char)) (a : List Char)
    (m : List (List Char)) (i : Nat) :
    loopStep flags (a :: m) (i + 1) = a :: loopStep flags m i := by
  simp only [loopStep, List.getD_cons_succ]
  split
  · simp [List.set]
  · rfl

theorem substLoop_cons_cons (flags : List (List Char)) (a b : List Char)
    (rest : List (List Char)) :
    substLoop flags (a :: b :: rest) =
      a :: substLoop flags
        ((if a ∈ flags then str_app_container_inputdir.data else b) :: rest) := by
  have hfold : ∀ (is : List Nat) (m : List (List Char)),
      is.foldl (fun acc i => loopStep flags acc (i + 1)) (a :: m) =
        a :: is.foldl (loopStep flags) m := by
    intro is
    induction is with
    | nil => intro m; rfl
    | cons i is ih =>
      intro m
      simp only [List.foldl_cons, loopStep_cons_succ, ih]
  have h0 : loopStep flags (a :: b :: rest) 0 =
      a :: (if a ∈ flags then str_app_container_inputdir.data else b) :: rest := by
    simp only [loopStep, List.getD_cons_zero]
    split
    · simp [List.set]
    · rfl
  show (List.range ((a :: b :: rest).length - 1)).foldl (loopStep flags)
      (a :: b :: rest) = _
  have hlen : (a :: b :: rest).length - 1 = rest.length + 1 := by simp
  rw [hlen, List.range_succ_eq_map, List.foldl_cons, List.foldl_map, h0]
  simp only [Nat.succ_eq_add_one]
  rw [hfold]
  simp [substLoop]

theorem substLoop_eq_scanSubst (flags : List (List Char)) :
    ∀ l : List (List Char), substLoop flags l = scanSubst flags l := by
  have haux : ∀ (rest : List (List Char)) (x : List Char),
      substLoop flags (x :: rest) = scanCore flags false (x :: rest) := by
    intro rest
    induction rest with
    | nil =>
      intro x
      simp [substLoop, scanCore]
    | cons y rest2 ih =>
      intro x
      by_cases hx : x ∈ flags <;>
        simp [substLoop_cons_cons, scanCore, hx, ih]
  intro l
  cases l with
  | nil => rfl
  | cons x rest => exact haux rest x

theorem scanCore_length (flags : List (List Char)) :
    ∀ (l : List (List Char)) (b : Bool),
      (scanCore flags b l).length = l.length := by
  intro l
  induction l with
  | nil => intro b; rfl
  | cons x rest ih => intro b; simp [scanCore, ih]

theorem scanCore_head (flags : List (List Char)) :
    ∀ l : List (List Char), (scanCore flags false l).head? = l.head? := by
  intro l
  cases l with
  | nil => rfl
  | cons x rest => simp [scanCore]

theorem scanCore_getD (flags : List (List Char)) :
    ∀ (l : List (List Char)) (b : Bool) (i : Nat), i + 1 < l.length →
      (scanCore flags b l).getD (i + 1) [] =
        (if (scanCore flags b l).getD i [] ∈ flags then
          str_app_container_inputdir.data
         else l.getD (i + 1) []) := by
  intro l
  induction l with
  | nil => intro b i h; simp at h
  | cons x rest ih =>
    intro b i h
    cases rest with
    | nil => simp at h
    | cons y rest2 =>
      cases i with
      | zero =>
        simp [scanCore, List.getD_cons_succ, List.getD_cons_zero]
      | succ j =>
        have hj : j + 1 < (y :: rest2).length := by
          simp only [List.length_cons] at h ⊢
          omega
        simp only [scanCore, List.getD_cons_succ]
        exact ih (decide ((if b = true then str_app_container_inputdir.data
          else x) ∈ flags)) j hj

theorem scanCore_id (flags : List (List Char)) :
    ∀ l : List (List Char),
      (∀ i : Nat, i + 1 < l.length → l.getD i [] ∉ flags) →
      scanCore flags false l = l := by
  intro l
  induction l with
  | nil => intro _; rfl
  | cons x rest ih =>
    intro h
    cases rest with
    | nil => simp [scanCore]
    | cons y rest2 =>
      have hx : x ∉ flags := by
        have := h 0 (by simp)
        simpa using this
      have hrest : ∀ i : Nat, i + 1 < (y :: rest2).length →
          (y :: rest2).getD i [] ∉ flags := by
        intro i hi
        have := h (i + 1) (by simp only [List.length_cons] at hi ⊢; omega)
        simpa [List.getD_cons_succ] using this
      have hdx : decide (x ∈ flags) = false := by simpa using hx
      have step : scanCore flags false (x :: y :: rest2) =
          x :: scanCore flags (decide (x ∈ flags)) (y :: rest2) := by
        simp [scanCore]
      rw [step, hdx, ih hrest]

theorem splitWSAux_append_ws (w : Char) (hw : w.isWhitespace = true) :
    ∀ (x acc y : List Char),
      splitWSAux acc (x ++ w :: y) = splitWSAux acc x ++ splitWSAux [] y := by
  intro x
  induction x with
  | nil =>
    intro acc y
    by_cases hacc : acc = [] <;> simp [splitWSAux, hw, hacc]
  | cons c cs ih =>
    intro acc y
    by_cases hc : c.isWhitespace <;> by_cases hacc : acc = [] <;>
      simp [splitWSAux, hc, hacc, ih]

theorem splitWS_append_space (x y : List Char) :
    splitWS (x ++ ' ' :: y) = splitWS x ++ splitWS y :=
  splitWSAux_append_ws ' ' (by decide) x [] y

theorem lstrip_append_slash (s : String) :
    lstrip ("/" ++ s) '/' = lstrip s '/' := by
  cases s with
  | mk l => rfl

theorem lstrip_data_head (s : String) :
    (lstrip s '/').data.head? ≠ some '/' := by
  show ((s.data.dropWhile (fun d => d = '/')).head?) ≠ some '/'
  induction s.data with
  | nil => simp
  | cons c cs ih =>
    by_cases hc : c = '/' <;> simp [List.dropWhile_cons, hc, ih]

theorem build_app_cmd_data_ds (a f p e sh : String) :
    (build_app_cmd a f p e sh "ds").data =
      sh.data ++ ' ' :: osPathJoinL p.data e.data ++ ' ' ::
        (if f.data ≠ [] then
          joinWS (substLoop (splitComma f.data) (splitWS a.data))
         else a.data) ++
        ' ' :: str_app_container_inputdir.data ++ ' ' ::
        str_app_container_outputdir.data := by
  simp [build_app_cmd, List.append_assoc]

theorem build_app_cmd_data_fsts (a f p e sh t : String)
    (ht : t = "fs" ∨ t = "ts") :
    (build_app_cmd a f p e sh t).data =
      sh.data ++ ' ' :: osPathJoinL p.data e.data ++ ' ' ::
        (if f.data ≠ [] then
          joinWS (substLoop (splitComma f.data) (splitWS a.data))
         else a.data) ++
        ' ' :: str_app_container_outputdir.data := by
  have hne : t ≠ "ds" := by
    rcases ht with h | h <;> subst h <;> decide
  simp [build_app_cmd, hne, ht, List.append_assoc]

theorem post_trace {H : Type} (mgr : ComputeMgr H) (cfg : AppConfig)
    (args : PostArgs) :
    (JobListResource.post mgr cfg args).2 =
      BackendCall.schedule_job args.image (postCmd args) (lstrip args.jid '/')
        (postResources args) (postShareDir cfg (lstrip args.jid '/')) ::
      (match mgr.schedule_job args.image (postCmd args) (lstrip args.jid '/')
          (postResources args) (postShareDir cfg (lstrip args.jid '/')) with
       | Except.error _ => []
       | Except.ok _ => [BackendCall.get_job_info, BackendCall.get_job_logs]) := by
  simp only [JobListResource.post]
  cases mgr.schedule_job args.image (postCmd args) (lstrip args.jid '/')
      (postResources args) (postShareDir cfg (lstrip args.jid '/')) <;> rfl

/-- C1: with a non-empty path-flag set, build_app_cmd tokenizes the argument
string on whitespace and rewrites it so that, in the resulting token
sequence, the token after every position holding a member of the flag set is
the fixed container input directory, every other token is the original one
at that position (the head is never touched), and the rewritten tokens are
re-joined with single spaces into the returned command line. -/
theorem claim_C1 (a f p e sh t : String) (hf : f.data ≠ [])
    (ht : t = "ds" ∨ t = "fs" ∨ t = "ts") :
    (substLoop (splitComma f.data) (splitWS a.data)).length
        = (splitWS a.data).length ∧
    (substLoop (splitComma f.data) (splitWS a.data)).head?
        = (splitWS a.data).head? ∧
    (∀ i : Nat, i + 1 < (splitWS a.data).length →
      (substLoop (splitComma f.data) (splitWS a.data)).getD (i + 1) [] =
        (if (substLoop (splitComma f.data) (splitWS a.data)).getD i []
            ∈ splitComma f.data then
          str_app_container_inputdir.data
         else (splitWS a.data).getD (i + 1) [])) ∧
    (build_app_cmd a f p e sh t).data =
      sh.data ++ ' ' :: osPathJoinL p.data e.data ++ ' ' ::
        joinWS (substLoop (splitComma f.data) (splitWS a.data)) ++
        (if t = "ds" then
          ' ' :: str_app_container_inputdir.data ++ ' ' ::
            str_app_container_outputdir.data
         else ' ' :: str_app_container_outputdir.data) := by
  refine ⟨?_, ?_, ?_, ?_⟩
  · rw [substLoop_eq_scanSubst]
    exact scanCore_length (splitComma f.data) (splitWS a.data) false
  · rw [substLoop_eq_scanSubst]
    exact scanCore_head (splitComma f.data) (splitWS a.data)
  · intro i hi
    rw [substLoop_eq_scanSubst]
    exact scanCore_getD (splitComma f.data) (splitWS a.data) false i hi
  · rcases ht with h | h | h
    · subst h
      rw [build_app_cmd_data_ds, if_pos hf]
      simp
    · subst h
      rw [build_app_cmd_data_fsts a f p e sh "fs" (Or.inl rfl), if_pos hf]
      simp
    · subst h
      rw [build_app_cmd_data_fsts a f p e sh "ts" (Or.inr rfl), if_pos hf]
      simp

/-- C4: when a member of the path-flag set is the last whitespace token of
the argument string, that occurrence triggers no substitution: the loop
preserves the number of tokens (the total embedding has no out-of-range
access to fail), never changes the first token, only changes a token whose
predecessor in the result is a flag, and, when no token before the last is
a flag, leaves the token list completely unmodified. -/
theorem claim_C4 (a f : String) (tl : List Char)
    (hlast : (splitWS a.data).getLast? = some tl)
    (hmem : tl ∈ splitComma f.data) :
    (substLoop (splitComma f.data) (splitWS a.data)).length
        = (splitWS a.data).length ∧
    (substLoop (splitComma f.data) (splitWS a.data)).head?
        = (splitWS a.data).head? ∧
    (∀ i : Nat, i + 1 < (splitWS a.data).length →
      (substLoop (splitComma f.data) (splitWS a.data)).getD (i + 1) [] ≠
        (splitWS a.data).getD (i + 1) [] →
      (substLoop (splitComma f.data) (splitWS a.data)).getD i []
        ∈ splitComma f.data) ∧
    ((∀ i : Nat, i + 1 < (splitWS a.data).length →
        (splitWS a.data).getD i [] ∉ splitComma f.data) →
      substLoop (splitComma f.data) (splitWS a.data) = splitWS a.data) := by
  refine ⟨?_, ?_, ?_, ?_⟩
  · rw [substLoop_eq_scanSubst]
    exact scanCore_length (splitComma f.data) (splitWS a.data) false
  · rw [substLoop_eq_scanSubst]
    exact scanCore_head (splitComma f.data) (splitWS a.data)
  · intro i hi hne
    by_contra hmemn
    apply hne
    rw [substLoop_eq_scanSubst] at hmemn ⊢
    simp only [scanSubst] at hmemn ⊢
    rw [scanCore_getD (splitComma f.data) (splitWS a.data) false i hi,
      if_neg hmemn]
  · intro h
    rw [substLoop_eq_scanSubst]
    exact scanCore_id (splitComma f.data) (splitWS a.data) h

/-- C5: for plugin type ds, the command built by build_app_cmd is exactly
execshell, a space, os.path.join(selfpath, selfexec), a space, the
(possibly rewritten) argument string, a space, the container input
directory, a space, and the container output directory. -/
theorem claim_C5 (a f p e sh : String) :
    (build_app_cmd a f p e sh "ds").data =
      sh.data ++ ' ' :: osPathJoinL p.data e.data ++ ' ' ::
        (if f.data ≠ [] then
          joinWS (scanSubst (splitComma f.data) (splitWS a.data))
         else a.data) ++
        ' ' :: str_app_container_inputdir.data ++ ' ' ::
        str_app_container_outputdir.data := by
  rw [build_app_cmd_data_ds, substLoop_eq_scanSubst]

/-- C6: with an empty path-flag set, build_app_cmd passes the argument
string through verbatim (no tokenization, substitution or whitespace
normalization), only prepending the executable prefix and appending the
per-job-kind directory constants. -/
theorem claim_C6 (a p e sh t : String)
    (ht : t = "ds" ∨ t = "fs" ∨ t = "ts") :
    (build_app_cmd a "" p e sh t).data =
      sh.data ++ ' ' :: osPathJoinL p.data e.data ++ ' ' :: a.data ++
        (if t = "ds" then
          ' ' :: str_app_container_inputdir.data ++ ' ' ::
            str_app_container_outputdir.data
         else ' ' :: str_app_container_outputdir.data) := by
  have hemp : ¬ (("" : String).data ≠ []) := by decide
  rcases ht with h | h | h
  · subst h
    rw [build_app_cmd_data_ds, if_neg hemp]
    simp
  · subst h
    rw [build_app_cmd_data_fsts a "" p e sh "fs" (Or.inl rfl), if_neg hemp]
    simp
  · subst h
    rw [build_app_cmd_data_fsts a "" p e sh "ts" (Or.inr rfl), if_neg hemp]
    simp

/-- C10: when a path flag is immediately followed by another path flag, the
first flag's substitution overwrites the second flag with the container
input directory before the loop reaches it, so (as long as the input
directory itself is not a flag) the second flag triggers no substitution of
its own and the token after it is left to the rest of the scan with its
head unmodified. -/
theorem claim_C10 (flags : List (List Char)) (a b : List Char)
    (rest : List (List Char)) (ha : a ∈ flags) (hb : b ∈ flags)
    (hc : str_app_container_inputdir.data ∉ flags) :
    substLoop flags (a :: b :: rest) =
      a :: str_app_container_inputdir.data :: substLoop flags rest ∧
    (substLoop flags rest).head? = rest.head? := by
  constructor
  · rw [substLoop_cons_cons, if_pos ha]
    cases rest with
    | nil => rfl
    | cons d rest2 =>
      rw [substLoop_cons_cons, if_neg hc]
  · rw [substLoop_eq_scanSubst]
    exact scanCore_head flags rest

/-- C2: evaluation of the backend selector at an identifier outside the
known set: get_compute_mgr returns the absent value None instead of an
explicit NotFound error, the exact null-handle behavior the claim rules
out (the handlers then dereference this value). -/
theorem claim_C2_null_backend : get_compute_mgr "moc" = none := by decide

/-- C3 counterexample: a filter ('fs') job whose path flag matches does
contain the container input directory in the built command (the rewriting
loop runs before the job-kind branch), refuting the claim that fs/ts
commands never contain it. -/
theorem claim_C3_counterexample :
    str_app_container_inputdir.data ∈
      splitWS (build_app_cmd "--dir /local/a" "--dir" "/usr/local/bin" "app"
        "python3" "fs").data := by decide

/-- C3 (amended): a ds command always contains both mount-contract
directories among its whitespace tokens; an fs/ts command contains the
input directory among its tokens only if a path-flag substitution could
have introduced it or one of the inputs already carried it — with an empty
flag string and inputs free of the constant, it never does. -/
theorem claim_C3_amended (a f p e sh : String) :
    (str_app_container_inputdir.data ∈
        splitWS (build_app_cmd a f p e sh "ds").data ∧
      str_app_container_outputdir.data ∈
        splitWS (build_app_cmd a f p e sh "ds").data) ∧
    (∀ t : String, (t = "fs" ∨ t = "ts") → f.data = [] →
      str_app_container_inputdir.data ∉ splitWS sh.data →
      str_app_container_inputdir.data ∉ splitWS (osPathJoinL p.data e.data) →
      str_app_container_inputdir.data ∉ splitWS a.data →
      str_app_container_inputdir.data ∉
        splitWS (build_app_cmd a f p e sh t).data) := by
  constructor
  · rw [build_app_cmd_data_ds, splitWS_append_space, splitWS_append_space,
      splitWS_append_space, splitWS_append_space]
    constructor
    · refine List.mem_append.mpr (Or.inl ?_)
      refine List.mem_append.mpr (Or.inr ?_)
      decide
    · refine List.mem_append.mpr (Or.inr ?_)
      decide
  · intro t ht hf h1 h2 h3
    rw [build_app_cmd_data_fsts a f p e sh t ht,
      if_neg (fun hcon => hcon hf), splitWS_append_space,
      splitWS_append_space, splitWS_append_space]
    intro hcon
    simp only [List.mem_append] at hcon
    rcases hcon with ((hc | hc) | hc) | hc
    · exact h1 hc
    · exact h2 hc
    · exact h3 hc
    · exact absurd hc (by decide)

/-- C8: the share directory passed to the backend by the submit handler is
os.path.join(STOREBASE, 'key-' + normalized job id) exactly when the
configured storage type is 'host' or 'nfs', and None for every other
storage type. -/
theorem claim_C8 (H : Type) (mgr : ComputeMgr H) (cfg : AppConfig)
    (args : PostArgs) :
    scheduledShare (JobListResource.post mgr cfg args).2 =
      some (if cfg.STORAGE_TYPE = "host" ∨ cfg.STORAGE_TYPE = "nfs" then
          some (String.mk (osPathJoinL cfg.STOREBASE.data
            ("key-" ++ lstrip args.jid '/').data))
        else none) := by
  rw [post_trace]
  simp [scheduledShare, postShareDir]

/-- C9: when the backend's schedule_job raises a ManagerException, the
submit handler surfaces exactly that exception's status code and message,
the trace holds the single schedule_job call (no retry, no get_job_info,
no get_job_logs), and the result is an error, so no job record is
assembled. -/
theorem claim_C9 (H : Type) (mgr : ComputeMgr H) (cfg : AppConfig)
    (args : PostArgs) (e : ManagerException)
    (hsch : mgr.schedule_job args.image (postCmd args) (lstrip args.jid '/')
        (postResources args) (postShareDir cfg (lstrip args.jid '/')) =
      Except.error e) :
    JobListResource.post mgr cfg args =
      (Except.error e,
       [BackendCall.schedule_job args.image (postCmd args)
          (lstrip args.jid '/') (postResources args)
          (postShareDir cfg (lstrip args.jid '/'))]) := by
  simp only [JobListResource.post]
  rw [hsch]

/-- C7: every job id a handler passes to the backend has had all leading
path separators stripped first — no backend-facing id in any call trace of
post, get or delete starts with '/' — and prepending a '/' to the
caller-supplied id leaves each handler's behavior (result and backend
calls) unchanged, so '/abc123' and 'abc123' resolve identically. -/
theorem claim_C7 :
    (∀ (H : Type) (mgr : ComputeMgr H) (cfg : AppConfig) (args : PostArgs)
        (c : BackendCall), c ∈ (JobListResource.post mgr cfg args).2 →
        ∀ j ∈ callJobIds c, j.data.head? ≠ some '/') ∧
    (∀ (H : Type) (mgr : ComputeMgr H) (jid : String) (c : BackendCall),
        c ∈ (JobResource.get mgr jid).2 →
        ∀ j ∈ callJobIds c, j.data.head? ≠ some '/') ∧
    (∀ (H : Type) (mgr : ComputeMgr H) (jid : String) (c : BackendCall),
        c ∈ (JobResource.delete mgr jid).2 →
        ∀ j ∈ callJobIds c, j.data.head? ≠ some '/') ∧
    (∀ (H : Type) (mgr : ComputeMgr H) (cfg : AppConfig) (args : PostArgs),
        JobListResource.post mgr cfg { args with jid := "/" ++ args.jid } =
          JobListResource.post mgr cfg args) ∧
    (∀ (H : Type) (mgr : ComputeMgr H) (jid : String),
        JobResource.get mgr ("/" ++ jid) = JobResource.get mgr jid) ∧
    (∀ (H : Type) (mgr : ComputeMgr H) (jid : String),
        JobResource.delete mgr ("/" ++ jid) = JobResource.delete mgr jid) := by
  refine ⟨?_, ?_, ?_, ?_, ?_, ?_⟩
  · intro H mgr cfg args c hc j hj
    rw [post_trace] at hc
    rcases List.mem_cons.mp hc with h | h
    · subst h
      simp only [callJobIds, List.mem_singleton] at hj
      subst hj
      exact lstrip_data_head args.jid
    · cases hsch : mgr.schedule_job args.image (postCmd args)
          (lstrip args.jid '/') (postResources args)
          (postShareDir cfg (lstrip args.jid '/')) with
      | error e => rw [hsch] at h; simp at h
      | ok job =>
        rw [hsch] at h
        simp at h
        rcases h with h | h <;> subst h <;> simp [callJobIds] at hj
  · intro H mgr jid c hc j hj
    simp only [JobResource.get] at hc
    cases hget : mgr.get_job (lstrip jid '/') with
    | error e =>
      rw [hget] at hc
      simp at hc
      subst hc
      simp only [callJobIds, List.mem_singleton] at hj
      subst hj
      exact lstrip_data_head jid
    | ok job =>
      rw [hget] at hc
      simp at hc
      rcases hc with h | h | h
      · subst h
        simp only [callJobIds, List.mem_singleton] at hj
        subst hj
        exact lstrip_data_head jid
      · subst h; simp [callJobIds] at hj
      · subst h; simp [callJobIds] at hj
  · intro H mgr jid c hc j hj
    simp only [JobResource.delete] at hc
    cases hget : mgr.get_job (lstrip jid '/') with
    | error e =>
      rw [hget] at hc
      simp at hc
      subst hc
      simp only [callJobIds, List.mem_singleton] at hj
      subst hj
      exact lstrip_data_head jid
    | ok job =>
      rw [hget] at hc
      simp at hc
      rcases hc with h | h
      · subst h
        simp only [callJobIds, List.mem_singleton] at hj
        subst hj
        exact lstrip_data_head jid
      · subst h; simp [callJobIds] at hj
  · intro H mgr cfg args
    simp only [JobListResource.post, postCmd, postResources, postShareDir]
    simp [lstrip_append_slash]
  · intro H mgr jid
    simp only [JobResource.get]
    simp [lstrip_append_slash]
  · intro H mgr jid
    simp only [JobResource.delete]
    simp [lstrip_append_slash]

/-- Witness for C1 at the spec's own example input. -/
theorem claim_C1_witness :
    (("--dir" : String).data ≠ []) ∧
    (("ds" : String) = "ds" ∨ ("ds" : String) = "fs" ∨
      ("ds" : String) = "ts") ∧
    ((substLoop (splitComma ("--dir" : String).data)
        (splitWS ("--dir /local/a,/local/b --n 4" : String).data)).length
        = (splitWS ("--dir /local/a,/local/b --n 4" : String).data).length ∧
    (substLoop (splitComma ("--dir" : String).data)
        (splitWS ("--dir /local/a,/local/b --n 4" : String).data)).head?
        = (splitWS ("--dir /local/a,/local/b --n 4" : String).data).head? ∧
    (∀ i : Nat,
        i + 1 <
          (splitWS ("--dir /local/a,/local/b --n 4" : String).data).length →
      (substLoop (splitComma ("--dir" : String).data)
          (splitWS ("--dir /local/a,/local/b --n 4" : String).data)).getD
          (i + 1) [] =
        (if (substLoop (splitComma ("--dir" : String).data)
            (splitWS ("--dir /local/a,/local/b --n 4" : String).data)).getD i []
            ∈ splitComma ("--dir" : String).data then
          str_app_container_inputdir.data
         else (splitWS
            ("--dir /local/a,/local/b --n 4" : String).data).getD (i + 1) [])) ∧
    (build_app_cmd "--dir /local/a,/local/b --n 4" "--dir" "/usr/local/bin"
        "app" "python3" "ds").data =
      ("python3" : String).data ++ ' ' ::
        osPathJoinL ("/usr/local/bin" : String).data ("app" : String).data ++
        ' ' :: joinWS (substLoop (splitComma ("--dir" : String).data)
          (splitWS ("--dir /local/a,/local/b --n 4" : String).data)) ++
        (if ("ds" : String) = "ds" then
          ' ' :: str_app_container_inputdir.data ++ ' ' ::
            str_app_container_outputdir.data
         else ' ' :: str_app_container_outputdir.data)) :=
  ⟨by decide, Or.inl rfl,
   claim_C1 "--dir /local/a,/local/b --n 4" "--dir" "/usr/local/bin" "app"
     "python3" "ds" (by decide) (Or.inl rfl)⟩

/-- Witness for C3 (amended) at a concrete fs submission without path
flags. -/
theorem claim_C3_witness :
    (("" : String).data = []) ∧
    (str_app_container_inputdir.data ∉ splitWS ("python3" : String).data) ∧
    (str_app_container_inputdir.data ∉
      splitWS (osPathJoinL ("/usr/local/bin" : String).data
        ("app" : String).data)) ∧
    (str_app_container_inputdir.data ∉ splitWS ("--n 4" : String).data) ∧
    str_app_container_inputdir.data ∉
      splitWS (build_app_cmd "--n 4" "" "/usr/local/bin" "app" "python3"
        "fs").data :=
  ⟨rfl, by decide, by decide, by decide,
   (claim_C3_amended "--n 4" "" "/usr/local/bin" "app" "python3").2 "fs"
     (Or.inl rfl) rfl (by decide) (by decide) (by decide)⟩

/-- Witness for C4 at an argument string whose only path flag is the last
token. -/
theorem claim_C4_witness :
    ((splitWS ("x --dir" : String).data).getLast?
        = some ("--dir" : String).data) ∧
    (("--dir" : String).data ∈ splitComma ("--dir" : String).data) ∧
    ((substLoop (splitComma ("--dir" : String).data)
        (splitWS ("x --dir" : String).data)).length
        = (splitWS ("x --dir" : String).data).length ∧
    (substLoop (splitComma ("--dir" : String).data)
        (splitWS ("x --dir" : String).data)).head?
        = (splitWS ("x --dir" : String).data).head? ∧
    (∀ i : Nat, i + 1 < (splitWS ("x --dir" : String).data).length →
      (substLoop (splitComma ("--dir" : String).data)
          (splitWS ("x --dir" : String).data)).getD (i + 1) [] ≠
        (splitWS ("x --dir" : String).data).getD (i + 1) [] →
      (substLoop (splitComma ("--dir" : String).data)
          (splitWS ("x --dir" : String).data)).getD i []
        ∈ splitComma ("--dir" : String).data) ∧
    ((∀ i : Nat, i + 1 < (splitWS ("x --dir" : String).data).length →
        (splitWS ("x --dir" : String).data).getD i []
          ∉ splitComma ("--dir" : String).data) →
      substLoop (splitComma ("--dir" : String).data)
          (splitWS ("x --dir" : String).data)
        = splitWS ("x --dir" : String).data)) :=
  ⟨by decide, by decide,
   claim_C4 "x --dir" "--dir" ("--dir" : String).data (by decide) (by decide)⟩

/-- Witness for C6 at a concrete fs submission. -/
theorem claim_C6_witness :
    (("fs" : String) = "ds" ∨ ("fs" : String) = "fs" ∨
      ("fs" : String) = "ts") ∧
    (build_app_cmd "--n 4" "" "/usr/local/bin" "app" "python3" "fs").data =
      ("python3" : String).data ++ ' ' ::
        osPathJoinL ("/usr/local/bin" : String).data ("app" : String).data ++
        ' ' :: ("--n 4" : String).data ++
        (if ("fs" : String) = "ds" then
          ' ' :: str_app_container_inputdir.data ++ ' ' ::
            str_app_container_outputdir.data
         else ' ' :: str_app_container_outputdir.data) :=
  ⟨Or.inr (Or.inl rfl),
   claim_C6 "--n 4" "/usr/local/bin" "app" "python3" "fs"
     (Or.inr (Or.inl rfl))⟩

/-- Witness for C7: the id the fetch handler passes to the backend for the
caller-supplied id '/abc123' does not start with '/', and prepending the
separator to 'abc123' does not change the handler's behavior. -/
theorem claim_C7_witness :
    (("abc123" : String).data.head? ≠ some '/') ∧
    JobResource.get testMgr ("/" ++ "abc123") =
      JobResource.get testMgr "abc123" :=
  ⟨claim_C7.2.1 Unit testMgr "/abc123" (BackendCall.get_job "abc123")
     (by decide) "abc123" (by decide),
   claim_C7.2.2.2.2.1 Unit testMgr "abc123"⟩

/-- Witness for C9 at a backend whose schedule_job always raises. -/
theorem claim_C9_witness :
    (failMgr.schedule_job sampleArgs.image (postCmd sampleArgs)
        (lstrip sampleArgs.jid '/') (postResources sampleArgs)
        (postShareDir sampleCfg (lstrip sampleArgs.jid '/')) =
      Except.error { status_code := 503, message := "quota exceeded" }) ∧
    JobListResource.post failMgr sampleCfg sampleArgs =
      (Except.error { status_code := 503, message := "quota exceeded" },
       [BackendCall.schedule_job sampleArgs.image (postCmd sampleArgs)
          (lstrip sampleArgs.jid '/') (postResources sampleArgs)
          (postShareDir sampleCfg (lstrip sampleArgs.jid '/'))]) :=
  ⟨rfl,
   claim_C9 Unit failMgr sampleCfg sampleArgs
     { status_code := 503, message := "quota exceeded" } rfl⟩

/-- Witness for C10 at the adjacent-flags example from the claim. -/
theorem claim_C10_witness :
    (("--dir" : String).data ∈
      [("--dir" : String).data, ("--other" : String).data]) ∧
    (("--other" : String).data ∈
      [("--dir" : String).data, ("--other" : String).data]) ∧
    (str_app_container_inputdir.data ∉
      [("--dir" : String).data, ("--other" : String).data]) ∧
    (substLoop [("--dir" : String).data, ("--other" : String).data]
        [("--dir" : String).data, ("--other" : String).data,
         ("x" : String).data] =
      ("--dir" : String).data :: str_app_container_inputdir.data ::
        substLoop [("--dir" : String).data, ("--other" : String).data]
          [("x" : String).data] ∧
    (substLoop [("--dir" : String).data, ("--other" : String).data]
        [("x" : String).data]).head? = [("x" : String).data].head?) :=
  ⟨by decide, by decide, by decide,
   claim_C10 [("--dir" : String).data, ("--other" : String).data]
     ("--dir" : String).data ("--other" : String).data
     [("x" : String).data] (by decide) (by decide) (by decide)⟩
